import Mathlib

/-!
Verification of the moving-average / golden-cross computation engine of
the tech-stock monitor (source: Tech_Stock_Monitor.py).

Prices are modelled as rationals.  A pandas series of closes becomes a
chronologically ordered list of rationals.  A rolling-mean entry that
pandas renders as NaN (not enough trailing history) is modelled as
Option.none; IEEE comparisons against NaN are always false, which the
option-valued comparison functions reproduce.  A float division by a
zero previous close yields a non-finite value (inf or NaN), modelled as
Option.none percentage change.
-/

namespace StockMonitor

/-- Simple moving average at 0-based index i of the close list:
pandas rolling(w).mean() at row i, which is defined (non-NaN) exactly
when w <= i+1 and i is a valid row, and is then the unweighted mean of
closes[i+1-w .. i]. -/
def smaAt (w : Nat) (closes : List ℚ) (i : Nat) : Option ℚ :=
  if w ≤ i + 1 ∧ i < closes.length then
    some (((closes.drop (i + 1 - w)).take w).sum / (w : ℚ))
  else none

/-- The whole rolling-mean series: rolling(w).mean() as a list of
option-valued entries, one per row of the close series. -/
def rollingMean (w : Nat) (closes : List ℚ) : List (Option ℚ) :=
  (List.range closes.length).map (smaAt w closes)

/-- The tail(60) of the rolling-mean series: the last min(60, n) rows. -/
def maTail60 (w : Nat) (closes : List ℚ) : List (Option ℚ) :=
  (rollingMean w closes).drop ((rollingMean w closes).length - 60)

/-- Negative pandas indexing: series.iloc[-i] on a length-L frame is the
element at position L - i; out of range is modelled as none. -/
def negIdx (l : List (Option ℚ)) (i : Nat) : Option ℚ :=
  (l.get? (l.length - i)).getD none

/-- Comparison a > b on two possibly-NaN float cells: false unless both
are defined (IEEE: any comparison with NaN is false). -/
def optGt : Option ℚ → Option ℚ → Bool
  | some a, some b => decide (b < a)
  | _, _ => false

/-- Comparison a <= b on two possibly-NaN float cells: false unless both
are defined. -/
def optLe : Option ℚ → Option ℚ → Bool
  | some a, some b => decide (a ≤ b)
  | _, _ => false

/-- Length of the 60-row moving-average tail, the bound used by the
golden-cross loop: len(ma_50d_series). -/
def tlen (closes : List ℚ) : Nat :=
  (maTail60 50 closes).length

/-- Loop body of the golden-cross scan at offset i (day iloc[-i]):
ma_50d_series.iloc[-i] > ma_200d_series.iloc[-i] and
ma_50d_series.iloc[-i-1] <= ma_200d_series.iloc[-i-1]. -/
def crossAtNeg (closes : List ℚ) (i : Nat) : Bool :=
  optGt (negIdx (maTail60 50 closes) i) (negIdx (maTail60 200 closes) i) &&
  optLe (negIdx (maTail60 50 closes) (i + 1)) (negIdx (maTail60 200 closes) (i + 1))

/-- The offsets scanned by the loop: range(1, min(31, len(ma_50d_series))). -/
def scanList (closes : List ℚ) : List Nat :=
  List.range' 1 (min 31 (tlen closes) - 1)

/-- Golden-cross flag of fetch_stock_data: false unless the long history
has at least 200 rows, else true iff some scanned offset satisfies the
crossover condition (the loop with break is an existence check). -/
def goldenCross (closes : List ℚ) : Bool :=
  if 200 ≤ closes.length then (scanList closes).any (fun i => crossAtNeg closes i)
  else false

/-- Crossover test at forward index i used in main's annotation loop:
MA50[i] > MA200[i] and MA50[i-1] <= MA200[i-1]. -/
def crossAtIdx (closes : List ℚ) (i : Nat) : Bool :=
  optGt (smaAt 50 closes i) (smaAt 200 closes i) &&
  optLe (smaAt 50 closes (i - 1)) (smaAt 200 closes (i - 1))

/-- The crossover points collected by main: all i in range(1, len(hist))
satisfying the crossover test, in ascending order. -/
def crossoverPoints (closes : List ℚ) : List Nat :=
  (List.range' 1 (closes.length - 1)).filter (fun i => crossAtIdx closes i)

/-- The reported crossover day: crossover_points[-1], the last collected
point, if any. -/
def latestCrossover (closes : List ℚ) : Option Nat :=
  (crossoverPoints closes).getLast?

/-- The reported crossover price: hist.Close.iloc[latest_crossover]. -/
def crossoverPrice (closes : List ℚ) : Option ℚ :=
  (latestCrossover closes).bind (fun i => closes.get? i)

/-- The 50-day moving average metric: mean of the tail(50) closes when at
least 50 rows exist, else absent. -/
def ma_50d (closes : List ℚ) : Option ℚ :=
  if 50 ≤ closes.length then
    some ((closes.drop (closes.length - 50)).sum / (50 : ℚ))
  else none

/-- The 200-day moving average metric: mean of the tail(200) closes when
at least 200 rows exist, else absent. -/
def ma_200d (closes : List ℚ) : Option ℚ :=
  if 200 ≤ closes.length then
    some ((closes.drop (closes.length - 200)).sum / (200 : ℚ))
  else none

/-- The previous close: close of the second-most-recent bar (iloc[-2])
when the 2-day history has at least 2 rows; otherwise the provider
metadata value info.get("previousClose", current_price). -/
def previous_close_of (recent : List ℚ) (infoPrev : Option ℚ) : ℚ :=
  if 2 ≤ recent.length then (recent.drop (recent.length - 2)).headD 0
  else infoPrev.getD (recent.getLastD 0)

/-- The daily change: current_price - previous_close. -/
def daily_change_of (recent : List ℚ) (infoPrev : Option ℚ) : ℚ :=
  recent.getLastD 0 - previous_close_of recent infoPrev

/-- The percentage change.  In the fallback (< 2 rows) branch the source
guards a zero previous close and returns 0; in the >= 2 rows branch it
divides unconditionally, and a zero previous close makes the float
result non-finite, modelled as none. -/
def percentage_change_of (recent : List ℚ) (infoPrev : Option ℚ) : Option ℚ :=
  if 2 ≤ recent.length then
    if previous_close_of recent infoPrev = 0 then none
    else some (daily_change_of recent infoPrev / previous_close_of recent infoPrev * 100)
  else
    if previous_close_of recent infoPrev ≠ 0 then
      some (daily_change_of recent infoPrev / previous_close_of recent infoPrev * 100)
    else some 0

/-- The per-symbol snapshot assembled by fetch_stock_data (the fields the
specification covers). -/
structure StockData where
  current_price : ℚ
  previous_close : ℚ
  daily_change : ℚ
  percentage_change : Option ℚ
  ma_50d : Option ℚ
  ma_200d : Option ℚ
  golden_cross : Bool
deriving DecidableEq

/-- fetch_stock_data: none when the recent history is empty, else the
snapshot.  Takes the 2-day close history, the provider previousClose
metadata, and the 250-day close history. -/
def fetchStockData (recent : List ℚ) (infoPrev : Option ℚ) (longCloses : List ℚ) :
    Option StockData :=
  if recent.length < 1 then none
  else some
    { current_price := recent.getLastD 0
      previous_close := previous_close_of recent infoPrev
      daily_change := daily_change_of recent infoPrev
      percentage_change := percentage_change_of recent infoPrev
      ma_50d := ma_50d longCloses
      ma_200d := ma_200d longCloses
      golden_cross := goldenCross longCloses }

/-- The per-symbol fetch loop of main: each symbol is fetched
independently and its (possibly absent) result recorded. -/
def runAll {α β : Type} (fetch : α → Option β) (symbols : List α) :
    List (α × Option β) :=
  symbols.map (fun s => (s, fetch s))

/-- One full detector invocation on a frozen series: golden-cross flag,
reported crossover day, reported crossover price. -/
def detectorRun (closes : List ℚ) : Bool × Option Nat × Option ℚ :=
  (goldenCross closes, latestCrossover closes, crossoverPrice closes)

/-- Two successive detector invocations on the same frozen series. -/
def runTwice (closes : List ℚ) :
    (Bool × Option Nat × Option ℚ) × (Bool × Option Nat × Option ℚ) :=
  (detectorRun closes, detectorRun closes)

/-- Specification-level crossover predicate at day d: both moving
averages defined on day d with the fast strictly above the slow, and
both defined on day d-1 with the fast at or below the slow. -/
def specCrossAt (closes : List ℚ) (d : Nat) : Prop :=
  (∃ f s, smaAt 50 closes d = some f ∧ smaAt 200 closes d = some s ∧ s < f) ∧
  (∃ f s, smaAt 50 closes (d - 1) = some f ∧ smaAt 200 closes (d - 1) = some s ∧ f ≤ s)

/-- Specification-level mean of the w most recent closes. -/
def specSMA (w : Nat) (closes : List ℚ) : ℚ :=
  (closes.reverse.take w).sum / (w : ℚ)

/-- A 201-bar series: 200 days at price 1, then one day at price 2.  On
the penultimate day the two moving averages are exactly equal; on the
last day the fast average is strictly above the slow one. -/
def equalThenAbove : List ℚ :=
  List.replicate 200 1 ++ [2]

/-- A 203-bar series with two golden crossovers (at days 200 and 202)
inside the trailing window. -/
def twoCrossSeries : List ℚ :=
  List.replicate 200 1 ++ [2, 0, 2]

/-- The snapshot produced for a single-bar history [3] with no provider
previous close. -/
def singleBarData : StockData :=
  ⟨3, 3, 0, some 0, none, none, false⟩

/-- The snapshot produced for the two-bar history [4, 6]. -/
def twoBarData : StockData :=
  ⟨6, 4, 2, some 50, none, none, false⟩

section Helpers

lemma optGt_eq_true_iff {a b : Option ℚ} :
    optGt a b = true ↔ ∃ x y, a = some x ∧ b = some y ∧ y < x := by
  cases a <;> cases b <;> simp [optGt, decide_eq_true_eq]

lemma optLe_eq_true_iff {a b : Option ℚ} :
    optLe a b = true ↔ ∃ x y, a = some x ∧ b = some y ∧ x ≤ y := by
  cases a <;> cases b <;> simp [optLe, decide_eq_true_eq]

lemma optGt_none_right (a : Option ℚ) : optGt a none = false := by
  cases a <;> rfl

lemma optLe_none_right (a : Option ℚ) : optLe a none = false := by
  cases a <;> rfl

lemma smaAt_eq_some {w : Nat} {closes : List ℚ} {i : Nat} {q : ℚ}
    (h : smaAt w closes i = some q) : w ≤ i + 1 ∧ i < closes.length := by
  by_cases hc : w ≤ i + 1 ∧ i < closes.length
  · exact hc
  · rw [smaAt, if_neg hc] at h
    cases h

lemma rollingMean_length (w : Nat) (closes : List ℚ) :
    (rollingMean w closes).length = closes.length := by
  simp [rollingMean]

lemma tlen_eq {closes : List ℚ} (h : 60 ≤ closes.length) : tlen closes = 60 := by
  unfold tlen maTail60
  rw [List.length_drop, rollingMean_length]
  omega

lemma scanList_eq {closes : List ℚ} (h : 60 ≤ closes.length) :
    scanList closes = List.range' 1 30 := by
  unfold scanList
  rw [tlen_eq h]
  norm_num

lemma negIdx_maTail (w i : Nat) {closes : List ℚ}
    (h1 : 1 ≤ i) (h2 : i ≤ 60) (h3 : 60 ≤ closes.length) :
    negIdx (maTail60 w closes) i = smaAt w closes (closes.length - i) := by
  have hlen : (rollingMean w closes).length = closes.length := rollingMean_length w closes
  have htl : (maTail60 w closes).length = 60 := by
    unfold maTail60
    rw [List.length_drop, hlen]
    omega
  unfold negIdx
  rw [htl]
  unfold maTail60
  rw [hlen]
  rw [List.get?_drop]
  have he : closes.length - 60 + (60 - i) = closes.length - i := by omega
  rw [he]
  unfold rollingMean
  rw [List.get?_map, List.get?_range (by omega : closes.length - i < closes.length)]
  rfl

lemma crossAtIdx_eq_true_iff {closes : List ℚ} {d : Nat} :
    crossAtIdx closes d = true ↔ specCrossAt closes d := by
  unfold crossAtIdx specCrossAt
  rw [Bool.and_eq_true, optGt_eq_true_iff, optLe_eq_true_iff]

lemma crossAtNeg_eq_idx (i : Nat) {closes : List ℚ}
    (h1 : 1 ≤ i) (h2 : i ≤ 30) (h3 : 60 ≤ closes.length) :
    crossAtNeg closes i = crossAtIdx closes (closes.length - i) := by
  unfold crossAtNeg crossAtIdx
  rw [negIdx_maTail 50 i h1 (by omega) h3, negIdx_maTail 200 i h1 (by omega) h3,
    negIdx_maTail 50 (i + 1) (by omega) (by omega) h3,
    negIdx_maTail 200 (i + 1) (by omega) (by omega) h3]
  have he : closes.length - (i + 1) = closes.length - i - 1 := by omega
  rw [he]

lemma goldenCross_eq_true_iff {closes : List ℚ} (h : 200 ≤ closes.length) :
    goldenCross closes = true ↔
      ∃ i, 1 ≤ i ∧ i ≤ 30 ∧ specCrossAt closes (closes.length - i) := by
  have h60 : 60 ≤ closes.length := by omega
  unfold goldenCross
  rw [if_pos h, List.any_eq_true]
  constructor
  · rintro ⟨i, hmem, hc⟩
    rw [scanList_eq h60, List.mem_range'_1] at hmem
    obtain ⟨hm1, hm2⟩ := hmem
    refine ⟨i, hm1, by omega, ?_⟩
    rw [crossAtNeg_eq_idx i hm1 (by omega) h60] at hc
    exact crossAtIdx_eq_true_iff.mp hc
  · rintro ⟨i, hi1, hi2, hs⟩
    refine ⟨i, ?_, ?_⟩
    · rw [scanList_eq h60, List.mem_range'_1]
      exact ⟨hi1, by omega⟩
    · rw [crossAtNeg_eq_idx i hi1 hi2 h60]
      exact crossAtIdx_eq_true_iff.mpr hs

lemma goldenCross_of_len_200 {closes : List ℚ} (h : closes.length = 200) :
    goldenCross closes = false := by
  cases hgc : goldenCross closes
  · rfl
  · exfalso
    obtain ⟨i, hi1, _, _, ⟨f, s, _, hs, _⟩⟩ :=
      (goldenCross_eq_true_iff (by omega)).mp hgc
    obtain ⟨hb1, _⟩ := smaAt_eq_some hs
    omega

lemma crossAtIdx_bounds {closes : List ℚ} {j : Nat}
    (h : crossAtIdx closes j = true) : 200 ≤ j ∧ j < closes.length := by
  unfold crossAtIdx at h
  rw [Bool.and_eq_true] at h
  obtain ⟨hgt, hle⟩ := h
  obtain ⟨f, s, _, hs, _⟩ := optGt_eq_true_iff.mp hgt
  obtain ⟨f2, s2, _, hs2, _⟩ := optLe_eq_true_iff.mp hle
  obtain ⟨hb1, hb2⟩ := smaAt_eq_some hs
  obtain ⟨hb3, _⟩ := smaAt_eq_some hs2
  omega

lemma mem_of_getLast_eq : ∀ {l : List Nat} {a : Nat}, l.getLast? = some a → a ∈ l := by
  intro l
  induction l with
  | nil => intro a h; cases h
  | cons x t ih =>
    intro a h
    cases t with
    | nil =>
      rw [List.getLast?_singleton] at h
      cases h
      exact List.mem_singleton_self x
    | cons y u =>
      rw [List.getLast?_cons_cons] at h
      exact List.mem_cons_of_mem x (ih h)

lemma le_getLast_of_sorted : ∀ {l : List Nat}, l.Pairwise (· < ·) →
    ∀ {m j : Nat}, l.getLast? = some m → j ∈ l → j ≤ m := by
  intro l
  induction l with
  | nil => intro _ m j h; cases h
  | cons x t ih =>
    intro hp m j hLast hj
    cases t with
    | nil =>
      rw [List.getLast?_singleton] at hLast
      cases hLast
      cases List.mem_singleton.mp hj
      exact le_refl x
    | cons y u =>
      rw [List.getLast?_cons_cons] at hLast
      rcases List.mem_cons.mp hj with rfl | hj2
      · exact le_of_lt ((List.pairwise_cons.mp hp).1 m (mem_of_getLast_eq hLast))
      · exact ih (List.pairwise_cons.mp hp).2 hLast hj2

lemma crossoverPoints_pairwise (closes : List ℚ) :
    (crossoverPoints closes).Pairwise (· < ·) :=
  (List.pairwise_lt_range' 1 (closes.length - 1)).filter _

lemma fetchStockData_some {recent : List ℚ} {infoPrev : Option ℚ} {long : List ℚ}
    {d : StockData} (h : fetchStockData recent infoPrev long = some d) :
    1 ≤ recent.length ∧
      d = { current_price := recent.getLastD 0
            previous_close := previous_close_of recent infoPrev
            daily_change := daily_change_of recent infoPrev
            percentage_change := percentage_change_of recent infoPrev
            ma_50d := ma_50d long
            ma_200d := ma_200d long
            golden_cross := goldenCross long } := by
  by_cases hl : recent.length < 1
  · rw [fetchStockData, if_pos hl] at h
    cases h
  · rw [fetchStockData, if_neg hl] at h
    injection h with h
    exact ⟨by omega, h.symm⟩

lemma sum_drop_eq_sum_reverse_take (l : List ℚ) (w : Nat) :
    (l.drop (l.length - w)).sum = (l.reverse.take w).sum := by
  have h : (l.reverse.take w).reverse = l.drop (l.length - w) := by
    rw [List.reverse_take, List.reverse_reverse, List.length_reverse]
  rw [← h, List.sum_reverse]

end Helpers

set_option maxRecDepth 1000000

unseal Rat.add Rat.mul Rat.inv Rat.sub in
/-- Claim C1, counterexample: on the two-bar series [0, 5] the previous
close is 0, yet the percentage change is not 0 — the source performs the
division unconditionally in the two-bar branch, so the result is the
non-finite float value (modelled none), contradicting the claim that a
zero previous close yields percentage_change = 0 in that branch. -/
theorem percentage_change_zero_prev_counterexample :
    (fetchStockData [0, 5] none []).map StockData.previous_close = some 0
    ∧ (fetchStockData [0, 5] none []).map StockData.percentage_change = some none
    ∧ ¬ ((fetchStockData [0, 5] none []).map StockData.percentage_change
          = some (some 0)) := by
  refine ⟨by decide, by decide, by decide⟩

/-- Claim C1, amended: whenever previous_close is nonzero,
percentage_change = daily_change / previous_close * 100 in both
branches; when previous_close = 0 the fallback (< 2 bars) branch
returns 0, but the two-or-more-bars branch divides unconditionally and
produces a non-finite value (modelled none), not 0. -/
theorem percentage_change_branches (recent : List ℚ) (infoPrev : Option ℚ)
    (long : List ℚ) (d : StockData)
    (h : fetchStockData recent infoPrev long = some d) :
    (d.previous_close ≠ 0 →
      d.percentage_change = some (d.daily_change / d.previous_close * 100))
    ∧ (recent.length < 2 → d.previous_close = 0 → d.percentage_change = some 0)
    ∧ (2 ≤ recent.length → d.previous_close = 0 → d.percentage_change = none) := by
  obtain ⟨hlen, rfl⟩ := fetchStockData_some h
  refine ⟨?_, ?_, ?_⟩
  · intro hne
    show percentage_change_of recent infoPrev
      = some (daily_change_of recent infoPrev / previous_close_of recent infoPrev * 100)
    by_cases h2 : 2 ≤ recent.length
    · rw [percentage_change_of, if_pos h2, if_neg hne]
    · rw [percentage_change_of, if_neg h2, if_pos hne]
  · intro h2 hz
    show percentage_change_of recent infoPrev = some 0
    rw [percentage_change_of, if_neg (by omega), if_neg (fun hcon => hcon hz)]
  · intro h2 hz
    show percentage_change_of recent infoPrev = none
    rw [percentage_change_of, if_pos h2, if_pos hz]

unseal Rat.add Rat.mul Rat.inv Rat.sub in
/-- Claim C1 witness: for the two-bar series [4, 6] the previous close
is the nonzero 4 and the percentage change is the quotient formula. -/
theorem percentage_change_branches_witness :
    twoBarData.percentage_change
      = some (twoBarData.daily_change / twoBarData.previous_close * 100) :=
  (percentage_change_branches [4, 6] none [] twoBarData (by decide)).1 (by decide)

unseal Rat.add Rat.mul Rat.inv in
/-- Claim C2: with at least 200 bars, the golden-cross flag is true
exactly when some day among the 30 most recent has the fast average
strictly above the slow one while the previous day had it at or below
(both averages defined on both days); a transition from exactly equal to
strictly above is detected (series equalThenAbove), and a series of 200
identical closes is never flagged. -/
theorem golden_cross_tiebreak (closes : List ℚ) (p : ℚ) (h : 200 ≤ closes.length) :
    (goldenCross closes = true ↔
      ∃ i, 1 ≤ i ∧ i ≤ 30 ∧ specCrossAt closes (closes.length - i))
    ∧ goldenCross equalThenAbove = true
    ∧ goldenCross (List.replicate 200 p) = false :=
  ⟨goldenCross_eq_true_iff h, by decide,
    goldenCross_of_len_200 (List.length_replicate 200 p)⟩

unseal Rat.add Rat.mul Rat.inv in
/-- Claim C2 witness: the equal-then-above series of 201 bars is flagged
and the constant series of 200 identical closes is not. -/
theorem golden_cross_tiebreak_witness :
    goldenCross equalThenAbove = true
    ∧ goldenCross (List.replicate 200 (1 : ℚ)) = false :=
  ⟨(golden_cross_tiebreak equalThenAbove 1 (by decide)).2.1,
    (golden_cross_tiebreak equalThenAbove 1 (by decide)).2.2⟩

/-- Claim C3: whenever a crossover day is reported, that day satisfies
the crossover condition, every day satisfying the condition is no later
than it (so older crossovers in the window are never reported), and the
reported crossover price is the close of that day. -/
theorem latest_crossover_reported (closes : List ℚ) (i : Nat)
    (h : latestCrossover closes = some i) :
    crossAtIdx closes i = true
    ∧ (∀ j, crossAtIdx closes j = true → j ≤ i)
    ∧ i < closes.length ∧ crossoverPrice closes = closes.get? i := by
  have him : i ∈ crossoverPoints closes := mem_of_getLast_eq h
  obtain ⟨_, hp⟩ := List.mem_filter.mp him
  have hb := crossAtIdx_bounds hp
  refine ⟨hp, ?_, hb.2, ?_⟩
  · intro j hj
    have hbj := crossAtIdx_bounds hj
    have hjm : j ∈ crossoverPoints closes := by
      refine List.mem_filter.mpr ⟨List.mem_range'_1.mpr ⟨by omega, by omega⟩, hj⟩
    exact le_getLast_of_sorted (crossoverPoints_pairwise closes) h hjm
  · rw [crossoverPrice, h]
    rfl

unseal Rat.add Rat.mul Rat.inv in
/-- Claim C3 witness: the 203-bar series with crossovers at days 200 and
202 reports day 202, within range, at close price 2. -/
theorem latest_crossover_reported_witness :
    crossAtIdx twoCrossSeries 202 = true
    ∧ (202 < twoCrossSeries.length
        ∧ crossoverPrice twoCrossSeries = twoCrossSeries.get? 202) := by
  have h : latestCrossover twoCrossSeries = some 202 := by decide
  exact ⟨(latest_crossover_reported twoCrossSeries 202 h).1,
    (latest_crossover_reported twoCrossSeries 202 h).2.2⟩

/-- Claim C4: each moving-average field equals the mean of the most
recent w closes exactly when at least w bars exist and is absent
otherwise, for w = 50 and w = 200. -/
theorem ma_presence_and_value (closes : List ℚ) :
    ma_50d closes = (if 50 ≤ closes.length then some (specSMA 50 closes) else none)
    ∧ ma_200d closes = (if 200 ≤ closes.length then some (specSMA 200 closes) else none)
    ∧ ((ma_50d closes).isSome ↔ 50 ≤ closes.length)
    ∧ ((ma_200d closes).isSome ↔ 200 ≤ closes.length) := by
  have e50 : ma_50d closes
      = (if 50 ≤ closes.length then some (specSMA 50 closes) else none) := by
    by_cases h : 50 ≤ closes.length
    · rw [ma_50d, if_pos h, if_pos h, specSMA, sum_drop_eq_sum_reverse_take]
      norm_num
    · rw [ma_50d, if_neg h, if_neg h]
  have e200 : ma_200d closes
      = (if 200 ≤ closes.length then some (specSMA 200 closes) else none) := by
    by_cases h : 200 ≤ closes.length
    · rw [ma_200d, if_pos h, if_pos h, specSMA, sum_drop_eq_sum_reverse_take]
      norm_num
    · rw [ma_200d, if_neg h, if_neg h]
  refine ⟨e50, e200, ?_, ?_⟩
  · rw [e50]
    by_cases h : 50 ≤ closes.length <;> simp [h]
  · rw [e200]
    by_cases h : 200 ≤ closes.length <;> simp [h]

/-- Claim C5: the current price is the most recent close; the previous
close is the second-most-recent close when two bars exist, else the
provider value when present, else the current price, making the daily
change zero for a single bar with no provider value. -/
theorem previous_close_fallback (recent : List ℚ) (infoPrev : Option ℚ)
    (long : List ℚ) (d : StockData)
    (h : fetchStockData recent infoPrev long = some d) :
    some d.current_price = recent.getLast?
    ∧ (2 ≤ recent.length → some d.previous_close = recent.reverse.get? 1)
    ∧ (recent.length = 1 → d.previous_close = infoPrev.getD d.current_price)
    ∧ (recent.length = 1 → infoPrev = none →
        d.previous_close = d.current_price ∧ d.daily_change = 0) := by
  obtain ⟨hlen, rfl⟩ := fetchStockData_some h
  refine ⟨?_, ?_, ?_, ?_⟩
  · show some (recent.getLastD 0) = recent.getLast?
    rw [List.getLastD_eq_getLast?]
    have hne : recent ≠ [] := by
      intro he
      rw [he] at hlen
      simp at hlen
    obtain ⟨x, hx⟩ := Option.isSome_iff_exists.mp (List.getLast?_isSome.mpr hne)
    rw [hx]
    rfl
  · intro h2
    show some (previous_close_of recent infoPrev) = recent.reverse.get? 1
    rw [previous_close_of, if_pos h2, List.headD_eq_head?_getD, List.head?_eq_getElem?,
      List.getElem?_drop, List.get?_eq_getElem?,
      List.getElem?_reverse (by omega : 1 < recent.length)]
    have he : recent.length - 2 + 0 = recent.length - 1 - 1 := by omega
    rw [he, List.getElem?_eq_getElem (by omega : recent.length - 1 - 1 < recent.length)]
    rfl
  · intro h1
    show previous_close_of recent infoPrev = infoPrev.getD (recent.getLastD 0)
    rw [previous_close_of, if_neg (by omega)]
  · intro h1 hnone
    subst hnone
    constructor
    · show previous_close_of recent none = recent.getLastD 0
      rw [previous_close_of, if_neg (by omega)]
      rfl
    · show daily_change_of recent none = 0
      rw [daily_change_of, previous_close_of, if_neg (by omega)]
      exact sub_self _

unseal Rat.add Rat.mul Rat.inv Rat.sub in
/-- Claim C5 witness: the single-bar series [3] with no provider value
yields previous close equal to the current price and zero daily
change. -/
theorem previous_close_fallback_witness :
    singleBarData.previous_close = singleBarData.current_price
    ∧ singleBarData.daily_change = 0 :=
  (previous_close_fallback [3] none [] singleBarData (by decide)).2.2.2 rfl rfl

/-- Claim C6: with fewer than 200 bars the golden-cross flag is false,
no crossover day is collected, and the crossover price is absent. -/
theorem insufficient_history_no_cross (closes : List ℚ)
    (h : closes.length < 200) :
    goldenCross closes = false
    ∧ latestCrossover closes = none
    ∧ crossoverPrice closes = none := by
  have hpoints : crossoverPoints closes = [] := by
    refine List.filter_eq_nil_iff.mpr ?_
    intro j _
    simp only [Bool.not_eq_true]
    cases hc : crossAtIdx closes j
    · rfl
    · exfalso
      have := crossAtIdx_bounds hc
      omega
  have hlatest : latestCrossover closes = none := by
    rw [latestCrossover, hpoints]
    rfl
  refine ⟨?_, hlatest, ?_⟩
  · rw [goldenCross, if_neg (by omega)]
  · rw [crossoverPrice, hlatest]
    rfl

/-- Claim C6 witness: a 5-bar constant series has no golden cross, no
crossover day and no crossover price. -/
theorem insufficient_history_no_cross_witness :
    goldenCross (List.replicate 5 (1 : ℚ)) = false
    ∧ latestCrossover (List.replicate 5 (1 : ℚ)) = none
    ∧ crossoverPrice (List.replicate 5 (1 : ℚ)) = none :=
  insufficient_history_no_cross (List.replicate 5 (1 : ℚ)) (by decide)

/-- Claim C7: an empty fetched history yields a null per-symbol result,
and the per-symbol loop gives every symbol an entry that depends only on
its own fetch outcome: changing other symbols' outcomes (for example to
failures) leaves this symbol's entry unchanged. -/
theorem partial_failure_isolation {α β : Type} (infoPrev : Option ℚ)
    (long : List ℚ) (f g : α → Option β) (symbols : List α) (t : α) (k : Nat)
    (hk : symbols.get? k = some t) (hfg : f t = g t) :
    fetchStockData [] infoPrev long = none
    ∧ (runAll f symbols).length = symbols.length
    ∧ (runAll f symbols).get? k = some (t, f t)
    ∧ (runAll g symbols).get? k = some (t, f t) := by
  refine ⟨rfl, List.length_map _ _, ?_, ?_⟩
  · rw [runAll, List.get?_map, hk]
    rfl
  · rw [runAll, List.get?_map, hk, hfg]
    rfl

/-- Claim C7 witness: with symbol 1's fetch failing under f and
succeeding under g, symbol 0's entry is identical in both runs and the
loop still records both symbols. -/
theorem partial_failure_isolation_witness :
    fetchStockData [] none [] = none
    ∧ (runAll (fun s => if s = 0 then some 7 else (none : Option Nat)) [0, 1]).length
        = ([0, 1] : List Nat).length
    ∧ (runAll (fun s => if s = 0 then some 7 else (none : Option Nat)) [0, 1]).get? 0
        = some (0, some 7)
    ∧ (runAll (fun s => if s = 0 then some 7 else (some 9 : Option Nat)) [0, 1]).get? 0
        = some (0, some 7) := by
  have h := partial_failure_isolation (α := Nat) (β := Nat) none []
    (fun s => if s = 0 then some 7 else none)
    (fun s => if s = 0 then some 7 else some 9) [0, 1] 0 0 rfl rfl
  exact h

/-- Claim C8: a day whose previous day lacks a defined 200-day moving
average is never a crossover point, in the forward scan and in the
backward scan alike; in particular the very first day with both
averages defined cannot be reported. -/
theorem boundary_day_skipped (closes : List ℚ) (i j : Nat)
    (h1 : smaAt 200 closes (i - 1) = none)
    (h2 : negIdx (maTail60 200 closes) (j + 1) = none) :
    crossAtIdx closes i = false
    ∧ ¬ specCrossAt closes i
    ∧ crossAtNeg closes j = false := by
  refine ⟨?_, ?_, ?_⟩
  · rw [crossAtIdx, h1, optLe_none_right, Bool.and_false]
  · rintro ⟨_, f, s, _, hs, _⟩
    rw [h1] at hs
    cases hs
  · rw [crossAtNeg, h2, optLe_none_right, Bool.and_false]

/-- Claim C8 witness: on a 200-bar constant series, day 199 (the first
day with both averages defined) is not a crossover point, and the
backward scan rejects offset 1 whose previous-day slow average is
undefined. -/
theorem boundary_day_skipped_witness :
    crossAtIdx (List.replicate 200 (1 : ℚ)) 199 = false
    ∧ ¬ specCrossAt (List.replicate 200 (1 : ℚ)) 199
    ∧ crossAtNeg (List.replicate 200 (1 : ℚ)) 1 = false :=
  boundary_day_skipped (List.replicate 200 (1 : ℚ)) 199 1 (by decide) (by decide)

/-- Claim C9: the detector is deterministic — on equal frozen inputs the
full detection result (flag, day, price) is equal, and two successive
invocations on the same series agree. -/
theorem detector_deterministic (ca cb : List ℚ) (h : ca = cb) :
    detectorRun ca = detectorRun cb ∧ (runTwice ca).1 = (runTwice cb).2 := by
  subst h
  exact ⟨rfl, rfl⟩

/-- Claim C9 witness: both invocations on the frozen equal-then-above
series agree. -/
theorem detector_deterministic_witness :
    detectorRun equalThenAbove = detectorRun equalThenAbove
    ∧ (runTwice equalThenAbove).1 = (runTwice equalThenAbove).2 :=
  detector_deterministic equalThenAbove equalThenAbove rfl

/-- Claim C10: the golden-cross scan performs exactly
min 30 (tlen - 1) comparisons where tlen is the length of the 60-row
moving-average tail, every scanned offset accesses only positions -i and
-i-1 inside that tail, and any position with an undefined 200-day
average compares as no-crossover, so the scan is total. -/
theorem scan_total_in_bounds (closes : List ℚ) :
    (scanList closes).length = min 30 (tlen closes - 1)
    ∧ (∀ i, i ∈ scanList closes → 1 ≤ i ∧ i + 1 ≤ tlen closes)
    ∧ (∀ i, negIdx (maTail60 200 closes) i = none
        ∨ negIdx (maTail60 200 closes) (i + 1) = none →
          crossAtNeg closes i = false) := by
  refine ⟨?_, ?_, ?_⟩
  · rw [scanList, List.length_range']
    rcases Nat.le_total 31 (tlen closes) with h | h
    · rw [Nat.min_eq_left h, Nat.min_eq_left (by omega)]
    · rw [Nat.min_eq_right h, Nat.min_eq_right (by omega)]
  · intro i hi
    rw [scanList, List.mem_range'_1] at hi
    have hmin : min 31 (tlen closes) ≤ tlen closes := min_le_right _ _
    omega
  · intro i hi
    rcases hi with hnone | hnone
    · rw [crossAtNeg, hnone, optGt_none_right, Bool.false_and]
    · rw [crossAtNeg, hnone, optLe_none_right, Bool.and_false]

/-- Claim C10 witness: on a 200-bar constant series the scan length is
as stated and offset 2, whose 200-day average is undefined, is rejected. -/
theorem scan_total_in_bounds_witness :
    crossAtNeg (List.replicate 200 (1 : ℚ)) 2 = false
    ∧ (scanList (List.replicate 200 (1 : ℚ))).length
        = min 30 (tlen (List.replicate 200 (1 : ℚ)) - 1) :=
  ⟨(scan_total_in_bounds (List.replicate 200 (1 : ℚ))).2.2 2 (Or.inl (by decide)),
    (scan_total_in_bounds (List.replicate 200 (1 : ℚ))).1⟩

end StockMonitor
